import Mathlib

/-!
Shallow embedding of the two applications of this repository:

* `sistema_loja.py` — a game store: games (`Jogo`), customers (`Cliente`),
  rentals (`Locacao`), orders (`Pedido` / `ItemPedido`), a session shopping
  cart, and the checkout flow `finalizar_compra`.
* `sistema_faculdade.py` — student registration (`Aluno`) with the
  per-course sequential matriculation allocator `gerar_matricula`.

Database tables are embedded as lists of rows; the ORM session commit of a
handler becomes a pure function from the old state to either an error
message (flash + rollback: nothing persisted) or the new state.  Dates are
opaque day numbers (`Nat`).  Python `int` becomes `Int`.
-/

/-! ## Store application: data model -/

/-- Row of table `jogos` (model `Jogo`). -/
structure Jogo where
  id : Nat
  titulo : String
  genero : String
  ano_lancamento : Int
  plataformas : String
  desenvolvedora : String
  copias_total : Int
deriving DecidableEq, Repr

/-- Row of table `clientes` (model `Cliente`). -/
structure Cliente where
  id : Nat
  nome : String
  telefone : String
  cpf : String
  endereco : String
deriving DecidableEq, Repr

/-- Row of table `locacoes` (model `Locacao`).  Dates are day numbers. -/
structure Locacao where
  id : Nat
  cliente_id : Nat
  jogo_id : Nat
  data_retirada : Nat
  data_devolucao_prevista : Option Nat
  data_devolucao_real : Option Nat
  status : String
deriving DecidableEq, Repr

/-- Row of table `pedidos` (model `Pedido`). -/
structure Pedido where
  id : Nat
  cliente_id : Nat
  data : Nat
  status : String
deriving DecidableEq, Repr

/-- Row of table `itens_pedido` (model `ItemPedido`). -/
structure ItemPedido where
  id : Nat
  pedido_id : Nat
  jogo_id : Nat
  quantidade : Int
deriving DecidableEq, Repr

/-- The whole relational store of the game shop. -/
structure LojaState where
  jogos : List Jogo
  clientes : List Cliente
  locacoes : List Locacao
  pedidos : List Pedido
  itens : List ItemPedido
deriving DecidableEq, Repr

/-- The rentals referencing the game with id `jid`
(the ORM relationship `Jogo.locacoes`). -/
def locacoesDoJogo (locs : List Locacao) (jid : Nat) : List Locacao :=
  locs.filter (fun l => l.jogo_id == jid)

/-- `Jogo.copias_disponiveis`:
`alugados = sum(1 for loc in self.locacoes if loc.status == "ALUGADO")`
then `copias_total - alugados`. -/
def copias_disponiveis (j : Jogo) (locsDoJogo : List Locacao) : Int :=
  j.copias_total - ((locsDoJogo.filter (fun l => l.status == "ALUGADO")).length : Int)

/-- Available copies of game `j` in state `st` (the property read through the
relationship loaded from the current rental rows). -/
def disponiveis (st : LojaState) (j : Jogo) : Int :=
  copias_disponiveis j (locacoesDoJogo st.locacoes j.id)

/-- `db.query(Jogo).filter(Jogo.id == jid).first()` (primary-key lookup). -/
def findJogo (st : LojaState) (jid : Nat) : Option Jogo :=
  st.jogos.find? (fun j => j.id == jid)

/-- `db.query(Cliente).filter(Cliente.id == cid).first()`. -/
def findCliente (st : LojaState) (cid : Nat) : Option Cliente :=
  st.clientes.find? (fun c => c.id == cid)

/-- `db.query(Locacao).filter(Locacao.id == lid).first()`. -/
def findLocacao (st : LojaState) (lid : Nat) : Option Locacao :=
  st.locacoes.find? (fun l => l.id == lid)

/-! ## Store application: session shopping cart

The session cart is the dict `{jogo_id: quantidade}`; we embed it as an
association list in insertion order (Python dicts preserve insertion order
and have unique keys). -/

/-- The session cart `{jogo_id: quantidade}`. -/
abbrev Cart := List (Nat × Int)

/-- `cart.get(jogo_id, 0)`. -/
def cartGet (cart : Cart) (jid : Nat) : Int :=
  ((cart.find? (fun p => p.1 == jid)).map Prod.snd).getD 0

/-- `cart[jogo_id] = v`: overwrite the entry if the key is present,
otherwise append it (insertion order). -/
def cartSet (cart : Cart) (jid : Nat) (v : Int) : Cart :=
  if cart.any (fun p => p.1 == jid) then
    cart.map (fun p => if p.1 == jid then (jid, v) else p)
  else
    cart ++ [(jid, v)]

/-- `adicionar_ao_carrinho`: a requested quantity `<= 0` is coerced to 1,
then added onto the existing quantity for that game (0 if absent). -/
def adicionar_ao_carrinho (cart : Cart) (jogo_id : Nat) (qtdReq : Int) : Cart :=
  let qtd := if qtdReq ≤ 0 then 1 else qtdReq
  cartSet cart jogo_id (cartGet cart jogo_id + qtd)

/-- `remover_do_carrinho`: `del cart[jogo_id]` when present, otherwise the
cart is left as is (only an error flash is shown). -/
def remover_do_carrinho (cart : Cart) (jogo_id : Nat) : Cart :=
  if cart.any (fun p => p.1 == jogo_id) then
    cart.filter (fun p => p.1 != jogo_id)
  else
    cart

/-! ## Store application: checkout (`finalizar_compra`, POST branch) -/

/-- The flash message of an insufficient-stock abort (the source interpolates
the title and the current availability; the model drops the decorative
quotation marks around the title). -/
def estoqueMsg (j : Jogo) (disp : Int) : String :=
  "Não há estoque suficiente de " ++ j.titulo ++
    " para essa compra (disponíveis: " ++ toString disp ++ ")."

/-- One iteration of the validation loop: a cart line whose game is not in
`jogos_map` is skipped (`continue`); otherwise it fails when
`copias_disponiveis < quantidade`. -/
def lineFalha (st : LojaState) (p : Nat × Int) : Option (Jogo × Int) :=
  match findJogo st p.1 with
  | none => none
  | some j => if disponiveis st j < p.2 then some (j, p.2) else none

/-- The first cart line that fails the stock check, if any (loop order =
cart insertion order). -/
def primeiroInsuficiente (st : LojaState) (cart : Cart) : Option (Jogo × Int) :=
  cart.findSome? (lineFalha st)

/-- `jogo.copias_total -= quantidade; if jogo.copias_total < 0:
jogo.copias_total = 0` applied to the (shared, mutable) game row with id
`jid`. -/
def decrementa (jogos : List Jogo) (jid : Nat) (q : Int) : List Jogo :=
  jogos.map (fun j =>
    if j.id == jid then
      let t := j.copias_total - q
      { j with copias_total := if t < 0 then 0 else t }
    else j)

/-- The order-creation loop of `finalizar_compra`: per cart line, skip if the
game is gone, otherwise add an `ItemPedido` and debit the stock.  Returns the
updated games, the items table extended in loop order, and the next free
item id. -/
def comprarItens (jogos : List Jogo) (itens : List ItemPedido) (pedidoId : Nat)
    (nextItemId : Nat) : Cart → List Jogo × List ItemPedido × Nat
  | [] => (jogos, itens, nextItemId)
  | (jid, q) :: rest =>
    match jogos.find? (fun j => j.id == jid) with
    | none => comprarItens jogos itens pedidoId nextItemId rest
    | some j =>
      comprarItens (decrementa jogos jid q)
        (itens ++ [⟨nextItemId, pedidoId, j.id, q⟩]) pedidoId (nextItemId + 1) rest

/-- Outcome of the checkout handler: an error flash leaves the database state
and the session cart as they were; success carries the committed state and
the cleared cart. -/
inductive CheckoutResult where
  | error (msg : String) (st : LojaState) (cart : Cart)
  | success (st : LojaState) (cart : Cart)
deriving DecidableEq, Repr

/-- `finalizar_compra` (POST): empty-cart guard, customer lookup, stock
validation over every cart line, then one `Pedido` row, one `ItemPedido` per
(resolving) cart line with the stock debit, commit, and cart cleared.
`pedidoId`/`itemIdBase` are the autoincrement ids the database would hand
out.  Any validation failure aborts before the transaction: nothing is
persisted and the cart is untouched. -/
def finalizar_compra (st : LojaState) (cart : Cart) (cliente_id : Nat)
    (today : Nat) (pedidoId : Nat) (itemIdBase : Nat) : CheckoutResult :=
  if cart.isEmpty then .error "Carrinho vazio." st cart
  else
    match findCliente st cliente_id with
    | none => .error "Cliente não encontrado." st cart
    | some cliente =>
      match primeiroInsuficiente st cart with
      | some (j, _) => .error (estoqueMsg j (disponiveis st j)) st cart
      | none =>
        let pedido : Pedido := ⟨pedidoId, cliente.id, today, "CONCLUIDO"⟩
        let r := comprarItens st.jogos st.itens pedidoId itemIdBase cart
        .success { st with jogos := r.1, pedidos := st.pedidos ++ [pedido],
                           itens := r.2.1 } []

/-! ## Store application: rental lifecycle -/

/-- `cadastrar_locacao` (POST), after the field/date parsing succeeded:
look up customer and game, check `copias_disponiveis > 0` unless the rental
is recorded as already returned (`status == "DEVOLVIDO"`), then insert the
row; an already-returned rental gets `data_devolucao_real = today`. -/
def cadastrar_locacao (st : LojaState) (today : Nat) (cliente_id jogo_id : Nat)
    (data_retirada : Nat) (data_prevista : Option Nat) (status : String)
    (newId : Nat) : Except String LojaState :=
  match findCliente st cliente_id, findJogo st jogo_id with
  | some cliente, some jogo =>
    let ja_devolveu := status == "DEVOLVIDO"
    if !ja_devolveu && disponiveis st jogo ≤ 0 then
      .error ("Não há cópias disponíveis de " ++ jogo.titulo ++ " para alugar.")
    else
      let data_devolucao_real : Option Nat := if ja_devolveu then some today else none
      let row : Locacao := ⟨newId, cliente.id, jogo.id, data_retirada, data_prevista,
        data_devolucao_real, status⟩
      .ok { st with locacoes := st.locacoes ++ [row] }
  | _, _ => .error "Cliente ou jogo não encontrado."

/-- Mutate the first row with id `lid` (the row `first()` returned). -/
def updateLocacao (locs : List Locacao) (lid : Nat) (f : Locacao → Locacao) :
    List Locacao :=
  match locs with
  | [] => []
  | l :: rest =>
    if l.id == lid then f l :: rest else l :: updateLocacao rest lid f

/-- The field updates `editar_locacao` applies to the found rental row:
always overwrite the status; when it is set to `DEVOLVIDO` the actual return
date becomes the supplied date, or today when none was supplied; any other
status clears the actual return date. -/
def editaCampos (today : Nat) (status : String) (data_real : Option Nat)
    (l : Locacao) : Locacao :=
  if status == "DEVOLVIDO" then
    { l with status := status, data_devolucao_real := some (data_real.getD today) }
  else
    { l with status := status, data_devolucao_real := none }

/-- `editar_locacao` (POST), after date parsing: not-found guard, then the
field updates above, then commit. -/
def editar_locacao (st : LojaState) (today : Nat) (locacao_id : Nat)
    (status : String) (data_real : Option Nat) : Except String LojaState :=
  match findLocacao st locacao_id with
  | none => .error "Locação não encontrada."
  | some _ =>
    let locs := updateLocacao st.locacoes locacao_id (editaCampos today status data_real)
    .ok { st with locacoes := locs }

/-- Outcome of `devolver_locacao`: not found, already returned (an
informational flash only — nothing is written), or the return committed. -/
inductive DevolucaoResult where
  | notFound (st : LojaState)
  | jaDevolvida (st : LojaState)
  | devolvida (st : LojaState)
deriving DecidableEq, Repr

/-- `devolver_locacao` (POST): if the rental is already `DEVOLVIDO` only an
info message is flashed and nothing is committed; otherwise the status is set
to `DEVOLVIDO` and the actual return date to today. -/
def devolver_locacao (st : LojaState) (today : Nat) (locacao_id : Nat) :
    DevolucaoResult :=
  match findLocacao st locacao_id with
  | none => .notFound st
  | some loc =>
    if loc.status == "DEVOLVIDO" then .jaDevolvida st
    else
      let locs := updateLocacao st.locacoes locacao_id
        (fun l => { l with status := "DEVOLVIDO", data_devolucao_real := some today })
      .devolvida { st with locacoes := locs }

/-! ## Faculty application: data model and matriculation allocator -/

/-- Row of table `alunos` (model `Aluno`). -/
structure Aluno where
  id : Nat
  nome : String
  email : String
  curso : String
  matricula : String
deriving DecidableEq, Repr

/-- `CURSOS_VALIDOS = {"GEC", "GEA", "GES", "GEB", "GET"}`. -/
def CURSOS_VALIDOS : List String := ["GEC", "GEA", "GES", "GEB", "GET"]

/-- The row `order_by(Aluno.id.desc()).first()` returns: the row with the
greatest primary key among the given rows. -/
def maxById : List Aluno → Option Aluno
  | [] => none
  | a :: rest =>
    match maxById rest with
    | none => some a
    | some b => if a.id < b.id then some b else some a

/-- `db.query(Aluno).filter(Aluno.curso == curso).order_by(Aluno.id.desc()).first()`. -/
def ultimoPorCurso (alunos : List Aluno) (curso : String) : Option Aluno :=
  maxById (alunos.filter (fun a => a.curso == curso))

/-- Python `s.startswith(pre)`: the first `len(pre)` characters equal `pre`. -/
def pyStartsWith (s pre : String) : Bool :=
  s.data.take pre.data.length == pre.data

/-- Decimal value of a digit character. -/
def digitVal (c : Char) : Nat := c.toNat - '0'.toNat

/-- Python `int(...)` on an unsigned digit string: fails on an empty string
or any non-digit character. -/
def pyNat? (ds : List Char) : Option Nat :=
  if !ds.isEmpty && ds.all (fun c => c.isDigit) then
    some (ds.foldl (fun n c => n * 10 + digitVal c) 0)
  else none

/-- Python `int(...)` over the characters: an optional sign followed by
digits; anything else raises `ValueError`, embedded as `none`. -/
def pyIntAux : List Char → Option Int
  | [] => none
  | c :: cs =>
    if c = '-' then (pyNat? cs).map (fun v => -(v : Int))
    else if c = '+' then (pyNat? cs).map (fun v => (v : Int))
    else (pyNat? (c :: cs)).map (fun v => (v : Int))

/-- Python `int(s)` (for strings already stripped of whitespace, as the
matricula suffixes here are). -/
def pyInt? (s : String) : Option Int :=
  pyIntAux s.data

/-- `gerar_matricula`: take the most recent row of the course; if its
matricula carries the course prefix, parse the numeric suffix (a parse
failure is silently treated as 0) and add one, otherwise start at one;
return `f"{curso}{proximo}"`. -/
def gerar_matricula (alunos : List Aluno) (curso : String) : String :=
  let proximo : Int :=
    match ultimoPorCurso alunos curso with
    | some ultimo =>
      if pyStartsWith ultimo.matricula curso then
        (pyInt? (ultimo.matricula.drop curso.length)).getD 0 + 1
      else 1
    | none => 1
  curso ++ toString proximo

/-- The insert `novo_aluno` commits: a fresh row whose matricula comes from
`gerar_matricula` against the rows existing at that moment. -/
def inserirAluno (alunos : List Aluno) (nome email curso : String) (newId : Nat) :
    List Aluno :=
  alunos ++ [⟨newId, nome, email, curso, gerar_matricula alunos curso⟩]

/-- `novo_aluno` (POST): required-field and course-code validation, then the
insert. -/
def novo_aluno (alunos : List Aluno) (nome email curso : String) (newId : Nat) :
    Except String (List Aluno) :=
  if nome == "" || email == "" || curso == "" then
    .error "Preencha todos os campos."
  else if !(CURSOS_VALIDOS.contains curso) then
    .error "Curso inválido! Use GEC, GEA, GES, GEB ou GET."
  else
    .ok (inserirAluno alunos nome email curso newId)

/-- `k` sequential, non-concurrent registrations for the same course, with
fresh increasing primary keys starting at `nextId`. -/
def registrarSeq (alunos : List Aluno) (curso : String) (nome email : Nat → String)
    (nextId : Nat) : Nat → List Aluno
  | 0 => alunos
  | k + 1 =>
    inserirAluno (registrarSeq alunos curso nome email nextId k)
      (nome k) (email k) curso (nextId + k)

/-- Number of decimal digits (specification helper for `Nat.repr`). -/
def numDigits (n : Nat) : Nat :=
  if n < 10 then 1 else numDigits (n / 10) + 1
decreasing_by exact Nat.div_lt_self (by omega) (by omega)

/-- The matriculas of the students of a course, in row order. -/
def matriculasDoCurso (alunos : List Aluno) (curso : String) : List String :=
  (alunos.filter (fun a => a.curso == curso)).map (fun a => a.matricula)

/-! ## Characterization helpers for the checkout theorems -/

/-- The keys of the cart. -/
def cartKeys (cart : Cart) : List Nat := cart.map Prod.fst

/-- Every quantity in the cart is strictly positive. -/
def cartPos (cart : Cart) : Prop := ∀ p ∈ cart, 0 < p.2

/-- The quantity the cart holds for a game, if any. -/
def cartQty (cart : Cart) (jid : Nat) : Option Int :=
  (cart.find? (fun p => p.1 == jid)).map Prod.snd

/-- What the checkout loop does to one game row: debit the cart quantity
with the defensive clamp at zero, or leave it alone if it is not in the
cart. -/
def jogoAposCompra (cart : Cart) (j : Jogo) : Jogo :=
  match cartQty cart j.id with
  | none => j
  | some q =>
    let t := j.copias_total - q
    { j with copias_total := if t < 0 then 0 else t }

/-- Modelled from the spec's words, for the refinement comparison of C5:
the same debit but without the defensive clamp — the spec asserts the
pre-check makes the clamp unreachable, so this must agree with
`jogoAposCompra` whenever the stock validation passed. -/
def jogoDebitadoSemClamp (cart : Cart) (j : Jogo) : Jogo :=
  match cartQty cart j.id with
  | none => j
  | some q => { j with copias_total := j.copias_total - q }

/-- The order lines the checkout loop appends: one per cart line whose game
id resolves against the games table, carrying that line's quantity, with
sequential autoincrement ids. -/
def itensNovos (pedidoId : Nat) (nextItemId : Nat) (jogos : List Jogo) :
    Cart → List ItemPedido
  | [] => []
  | (jid, q) :: rest =>
    match jogos.find? (fun j => j.id == jid) with
    | none => itensNovos pedidoId nextItemId jogos rest
    | some _ => ⟨nextItemId, pedidoId, jid, q⟩ :: itensNovos pedidoId (nextItemId + 1) jogos rest

/-! ## Lemmas: availability accounting -/

/-- The two nested filters of the availability property collapse into the
spec's single count. -/
theorem alugados_eq_countP (locs : List Locacao) (jid : Nat) :
    ((locacoesDoJogo locs jid).filter (fun l => l.status == "ALUGADO")).length
      = locs.countP (fun l => l.jogo_id == jid && l.status == "ALUGADO") := by
  rw [locacoesDoJogo, List.filter_filter,
    List.filter_congr (fun a _ => Bool.and_comm (a.status == "ALUGADO") (a.jogo_id == jid)),
    ← List.countP_eq_length_filter]

theorem disponiveis_eq_countP (st : LojaState) (j : Jogo) :
    disponiveis st j = j.copias_total -
      (st.locacoes.countP (fun l => l.jogo_id == j.id && l.status == "ALUGADO") : Int) := by
  rw [disponiveis, copias_disponiveis, alugados_eq_countP]

/-- C2. For every game, available copies equals total copies minus the count
of that game's rentals with status `ALUGADO`; rentals with any other status
do not reduce availability; and, the value being recomputed from the current
rental rows, it shifts by exactly one under creation or deletion of an
`ALUGADO` rental of the game and under a status change away from
`ALUGADO`. -/
theorem c2_disponibilidade (st : LojaState) (j : Jogo) :
    disponiveis st j = j.copias_total -
      (st.locacoes.countP (fun l => l.jogo_id == j.id && l.status == "ALUGADO") : Int)
    ∧ (∀ l : Locacao, l.status ≠ "ALUGADO" →
        disponiveis { st with locacoes := l :: st.locacoes } j = disponiveis st j)
    ∧ (∀ l : Locacao, l.jogo_id = j.id → l.status = "ALUGADO" →
        disponiveis { st with locacoes := l :: st.locacoes } j = disponiveis st j - 1)
    ∧ (∀ pre post (l l' : Locacao), st.locacoes = pre ++ l :: post →
        l.jogo_id = j.id → l.status = "ALUGADO" →
        l'.jogo_id = j.id → l'.status ≠ "ALUGADO" →
        disponiveis { st with locacoes := pre ++ l' :: post } j = disponiveis st j + 1) := by
  refine ⟨disponiveis_eq_countP st j, ?_, ?_, ?_⟩
  · intro l hl
    rw [disponiveis_eq_countP, disponiveis_eq_countP]
    have : (l.jogo_id == j.id && l.status == "ALUGADO") = false := by
      simp [hl]
    simp [List.countP_cons, this]
  · intro l h1 h2
    rw [disponiveis_eq_countP, disponiveis_eq_countP]
    have : (l.jogo_id == j.id && l.status == "ALUGADO") = true := by
      simp [h1, h2]
    simp only [List.countP_cons, this, if_true]
    push_cast
    ring
  · intro pre post l l' hdec h1 h2 h1' h2'
    rw [disponiveis_eq_countP, disponiveis_eq_countP, hdec]
    have hl : (l.jogo_id == j.id && l.status == "ALUGADO") = true := by simp [h1, h2]
    have hl' : (l'.jogo_id == j.id && l'.status == "ALUGADO") = false := by simp [h2']
    simp only [List.countP_append, List.countP_cons, hl, hl', if_true, if_false]
    push_cast
    ring

/-- Witness for C2 at a concrete state: one game with 2 copies, one open
rental and one returned rental, so 1 copy is available; a returned rental
does not change it; a new open rental brings it to 0; returning the open
rental brings it back to 2. -/
theorem c2_disponibilidade_witness :
    disponiveis ⟨[⟨1, "Z", "g", 2000, "PC", "D", 2⟩], [], [⟨1, 7, 1, 10, none, none, "ALUGADO"⟩,
        ⟨2, 7, 1, 11, none, some 12, "DEVOLVIDO"⟩], [], []⟩ ⟨1, "Z", "g", 2000, "PC", "D", 2⟩
      = 2 - (1 : Int)
    ∧ disponiveis ⟨[⟨1, "Z", "g", 2000, "PC", "D", 2⟩], [],
        [⟨3, 8, 1, 13, none, some 14, "DEVOLVIDO"⟩, ⟨1, 7, 1, 10, none, none, "ALUGADO"⟩,
         ⟨2, 7, 1, 11, none, some 12, "DEVOLVIDO"⟩], [], []⟩ ⟨1, "Z", "g", 2000, "PC", "D", 2⟩
      = disponiveis ⟨[⟨1, "Z", "g", 2000, "PC", "D", 2⟩], [],
        [⟨1, 7, 1, 10, none, none, "ALUGADO"⟩,
         ⟨2, 7, 1, 11, none, some 12, "DEVOLVIDO"⟩], [], []⟩ ⟨1, "Z", "g", 2000, "PC", "D", 2⟩ := by
  have h := c2_disponibilidade ⟨[⟨1, "Z", "g", 2000, "PC", "D", 2⟩], [],
    [⟨1, 7, 1, 10, none, none, "ALUGADO"⟩,
     ⟨2, 7, 1, 11, none, some 12, "DEVOLVIDO"⟩], [], []⟩ ⟨1, "Z", "g", 2000, "PC", "D", 2⟩
  exact ⟨by rw [h.1]; decide, h.2.1 ⟨3, 8, 1, 13, none, some 14, "DEVOLVIDO"⟩ (by decide)⟩

/-! ## Lemmas: rental lifecycle -/

theorem find_locacao_pre_append (pre : List Locacao) (loc : Locacao) (post : List Locacao)
    (lid : Nat) (hpre : ∀ x ∈ pre, x.id ≠ lid) (hl : loc.id = lid) :
    (pre ++ loc :: post).find? (fun x => x.id == lid) = some loc := by
  induction pre with
  | nil => simp [List.find?_cons, hl]
  | cons x pre ih =>
    have hx : (x.id == lid) = false := by
      simp [hpre x (List.mem_cons_self x pre)]
    simp only [List.cons_append, List.find?_cons, hx]
    exact ih (fun y hy => hpre y (List.mem_cons_of_mem x hy))

theorem updateLocacao_pre_append (pre : List Locacao) (loc : Locacao) (post : List Locacao)
    (lid : Nat) (f : Locacao → Locacao)
    (hpre : ∀ x ∈ pre, x.id ≠ lid) (hl : loc.id = lid) :
    updateLocacao (pre ++ loc :: post) lid f = pre ++ f loc :: post := by
  induction pre with
  | nil => simp [updateLocacao, hl]
  | cons x pre ih =>
    have hx : (x.id == lid) = false := by
      simp [hpre x (List.mem_cons_self x pre)]
    simp only [List.cons_append, updateLocacao, hx, Bool.false_eq_true, if_false,
      List.cons.injEq, true_and]
    exact ih (fun y hy => hpre y (List.mem_cons_of_mem x hy))

/-- C6. With the customer and the game found, creating a rental with status
`ALUGADO` is rejected (and no row inserted) when no copy is available,
succeeds with an open row when one is, and creating it with status
`DEVOLVIDO` skips the availability check entirely and records today as the
actual return date. -/
theorem c6_cadastrar_locacao (st : LojaState) (today cid jid dr : Nat)
    (dp : Option Nat) (nid : Nat) (c : Cliente) (j : Jogo)
    (hc : findCliente st cid = some c) (hj : findJogo st jid = some j) :
    (disponiveis st j ≤ 0 →
      cadastrar_locacao st today cid jid dr dp "ALUGADO" nid =
        .error ("Não há cópias disponíveis de " ++ j.titulo ++ " para alugar."))
    ∧ (0 < disponiveis st j →
      cadastrar_locacao st today cid jid dr dp "ALUGADO" nid =
        .ok { st with locacoes := st.locacoes ++ [⟨nid, c.id, j.id, dr, dp, none, "ALUGADO"⟩] })
    ∧ (cadastrar_locacao st today cid jid dr dp "DEVOLVIDO" nid =
        .ok { st with locacoes :=
          st.locacoes ++ [⟨nid, c.id, j.id, dr, dp, some today, "DEVOLVIDO"⟩] }) := by
  refine ⟨?_, ?_, ?_⟩
  · intro hdisp
    simp [cadastrar_locacao, hc, hj, hdisp]
  · intro hdisp
    rw [cadastrar_locacao, hc, hj]
    have : (decide (disponiveis st j ≤ 0)) = false := by simp; omega
    simp [this]
  · simp [cadastrar_locacao, hc, hj]

/-- Witness for C6: a game with a single copy already out on an open rental.
Creation with status `ALUGADO` is rejected; the same request recorded as
already returned (`DEVOLVIDO`) is accepted. -/
theorem c6_cadastrar_locacao_witness :
    (cadastrar_locacao ⟨[⟨1, "Z", "g", 2000, "PC", "D", 1⟩], [⟨1, "Ana", "t", "c", "e"⟩],
        [⟨1, 1, 1, 10, none, none, "ALUGADO"⟩], [], []⟩ 30 1 1 30 none "ALUGADO" 2 =
      .error "Não há cópias disponíveis de Z para alugar.")
    ∧ (cadastrar_locacao ⟨[⟨1, "Z", "g", 2000, "PC", "D", 1⟩], [⟨1, "Ana", "t", "c", "e"⟩],
        [⟨1, 1, 1, 10, none, none, "ALUGADO"⟩], [], []⟩ 30 1 1 30 none "DEVOLVIDO" 2 =
      .ok ⟨[⟨1, "Z", "g", 2000, "PC", "D", 1⟩], [⟨1, "Ana", "t", "c", "e"⟩],
        [⟨1, 1, 1, 10, none, none, "ALUGADO"⟩, ⟨2, 1, 1, 30, none, some 30, "DEVOLVIDO"⟩],
        [], []⟩) := by
  have h := c6_cadastrar_locacao ⟨[⟨1, "Z", "g", 2000, "PC", "D", 1⟩],
    [⟨1, "Ana", "t", "c", "e"⟩], [⟨1, 1, 1, 10, none, none, "ALUGADO"⟩], [], []⟩
    30 1 1 30 none 2 ⟨1, "Ana", "t", "c", "e"⟩ ⟨1, "Z", "g", 2000, "PC", "D", 1⟩
    (by decide) (by decide)
  exact ⟨h.1 (by decide), h.2.2⟩

/-- C7. Editing an existing rental to status `DEVOLVIDO` sets its actual
return date to the supplied date, or to today when none was supplied;
editing it to any other status clears the actual return date.  Only the
found row changes. -/
theorem c7_editar_locacao (st : LojaState) (today lid : Nat) (status : String)
    (d : Option Nat) (pre post : List Locacao) (loc : Locacao)
    (hdec : st.locacoes = pre ++ loc :: post)
    (hpre : ∀ x ∈ pre, x.id ≠ lid) (hl : loc.id = lid) :
    (status = "DEVOLVIDO" → ∀ day, d = some day →
      editar_locacao st today lid status d = .ok { st with locacoes :=
        pre ++ { loc with status := status, data_devolucao_real := some day } :: post })
    ∧ (status = "DEVOLVIDO" → d = none →
      editar_locacao st today lid status d = .ok { st with locacoes :=
        pre ++ { loc with status := status, data_devolucao_real := some today } :: post })
    ∧ (status ≠ "DEVOLVIDO" →
      editar_locacao st today lid status d = .ok { st with locacoes :=
        pre ++ { loc with status := status, data_devolucao_real := none } :: post }) := by
  have hfind : findLocacao st lid = some loc := by
    rw [findLocacao, hdec]; exact find_locacao_pre_append pre loc post lid hpre hl
  have hupd : ∀ f, updateLocacao st.locacoes lid f = pre ++ f loc :: post := by
    intro f; rw [hdec]; exact updateLocacao_pre_append pre loc post lid f hpre hl
  refine ⟨?_, ?_, ?_⟩
  · intro hs day hd
    rw [editar_locacao, hfind, hupd, editaCampos, hs, hd]
    simp
  · intro hs hd
    rw [editar_locacao, hfind, hupd, editaCampos, hs, hd]
    simp
  · intro hs
    rw [editar_locacao, hfind, hupd, editaCampos]
    have : (status == "DEVOLVIDO") = false := by simp [hs]
    simp [this]

/-- Witness for C7: editing rental 1 to `DEVOLVIDO` without a date stamps
today (= 42); editing it back to `ALUGADO` clears the date. -/
theorem c7_editar_locacao_witness :
    (editar_locacao ⟨[], [], [⟨1, 1, 1, 10, none, none, "ALUGADO"⟩], [], []⟩ 42 1
        "DEVOLVIDO" none =
      .ok ⟨[], [], [⟨1, 1, 1, 10, none, some 42, "DEVOLVIDO"⟩], [], []⟩)
    ∧ (editar_locacao ⟨[], [], [⟨1, 1, 1, 10, none, some 42, "DEVOLVIDO"⟩], [], []⟩ 50 1
        "ALUGADO" (some 99) =
      .ok ⟨[], [], [⟨1, 1, 1, 10, none, none, "ALUGADO"⟩], [], []⟩) := by
  have h1 := c7_editar_locacao ⟨[], [], [⟨1, 1, 1, 10, none, none, "ALUGADO"⟩], [], []⟩
    42 1 "DEVOLVIDO" none [] [] ⟨1, 1, 1, 10, none, none, "ALUGADO"⟩ rfl
    (by intro x hx; cases hx) rfl
  have h2 := c7_editar_locacao ⟨[], [], [⟨1, 1, 1, 10, none, some 42, "DEVOLVIDO"⟩], [], []⟩
    50 1 "ALUGADO" (some 99) [] [] ⟨1, 1, 1, 10, none, some 42, "DEVOLVIDO"⟩ rfl
    (by intro x hx; cases hx) rfl
  exact ⟨h1.2.1 rfl rfl, h2.2.2 (by decide)⟩

/-- C10. The return endpoint is idempotent: invoked on a rental already
marked `DEVOLVIDO` it flashes only the informational message and leaves the
whole state untouched; and after a successful return, a second invocation
(on the committed state, at any later date) again changes nothing. -/
theorem c10_devolver_idempotente (st : LojaState) (today lid : Nat) (loc : Locacao)
    (h : findLocacao st lid = some loc) :
    (loc.status = "DEVOLVIDO" → devolver_locacao st today lid = .jaDevolvida st)
    ∧ (∀ st' today', devolver_locacao st today lid = .devolvida st' →
        devolver_locacao st' today' lid = .jaDevolvida st') := by
  constructor
  · intro hs
    rw [devolver_locacao, h]
    simp [hs]
  · intro st' today' hdev
    rw [devolver_locacao, h] at hdev
    by_cases hs : (loc.status == "DEVOLVIDO") = true
    · simp [hs] at hdev
    · simp only [hs, Bool.false_eq_true, if_false, DevolucaoResult.devolvida.injEq] at hdev
      have h' : st.locacoes.find? (fun l => l.id == lid) = some loc := h
      have hlid : loc.id = lid := by simpa using List.find?_some h'
      obtain ⟨-, pre, post, hdec, hpre⟩ := (List.find?_eq_some).mp h'
      have hpre' : ∀ x ∈ pre, x.id ≠ lid := by
        intro x hx
        have := hpre x hx
        simpa using this
      have hupd : updateLocacao st.locacoes lid
          (fun l => { l with status := "DEVOLVIDO", data_devolucao_real := some today }) =
          pre ++ { loc with status := "DEVOLVIDO", data_devolucao_real := some today } :: post := by
        rw [hdec]
        exact updateLocacao_pre_append pre loc post lid _ hpre' hlid
      have hfind' : findLocacao st' lid =
          some { loc with status := "DEVOLVIDO", data_devolucao_real := some today } := by
        rw [← hdev]
        show (updateLocacao st.locacoes lid _).find? (fun l => l.id == lid) = _
        rw [hupd]
        exact find_locacao_pre_append pre _ post lid hpre' hlid
      rw [devolver_locacao, hfind']
      simp

/-- Witness for C10: returning rental 1 commits; returning it again on the
committed state is a no-op. -/
theorem c10_devolver_idempotente_witness :
    devolver_locacao ⟨[], [], [⟨1, 1, 1, 10, none, some 30, "DEVOLVIDO"⟩], [], []⟩ 31 1 =
      .jaDevolvida ⟨[], [], [⟨1, 1, 1, 10, none, some 30, "DEVOLVIDO"⟩], [], []⟩
    ∧ devolver_locacao ⟨[], [], [⟨1, 1, 1, 10, none, some 30, "DEVOLVIDO"⟩], [], []⟩ 99 1 =
      .jaDevolvida ⟨[], [], [⟨1, 1, 1, 10, none, some 30, "DEVOLVIDO"⟩], [], []⟩ := by
  have h := c10_devolver_idempotente
    ⟨[], [], [⟨1, 1, 1, 10, none, none, "ALUGADO"⟩], [], []⟩ 30 1
    ⟨1, 1, 1, 10, none, none, "ALUGADO"⟩ (by decide)
  exact ⟨h.2 _ 31 (by decide), h.2 _ 99 (by decide)⟩

/-! ## Lemmas: shopping cart -/

theorem mem_cartSet (cart : Cart) (jid : Nat) (v : Int) (p : Nat × Int)
    (hp : p ∈ cartSet cart jid v) : p = (jid, v) ∨ p ∈ cart := by
  rw [cartSet] at hp
  by_cases hany : cart.any (fun p => p.1 == jid)
  · rw [if_pos hany] at hp
    obtain ⟨x, hx, hgx⟩ := List.mem_map.mp hp
    by_cases hk : (x.1 == jid) = true
    · left; rw [← hgx]; simp [hk]
    · right; rw [← hgx]; simpa [hk] using hx
  · rw [if_neg hany] at hp
    rcases List.mem_append.mp hp with h | h
    · right; exact h
    · left; simpa using h

theorem cartGet_nonneg (cart : Cart) (jid : Nat) (h : cartPos cart) :
    0 ≤ cartGet cart jid := by
  rw [cartGet]
  cases hfind : cart.find? (fun p => p.1 == jid) with
  | none => simp
  | some p =>
    have := h p (List.mem_of_find?_eq_some hfind)
    simp
    omega

theorem cartGet_cartSet_self (cart : Cart) (jid : Nat) (v : Int) :
    cartGet (cartSet cart jid v) jid = v := by
  rw [cartGet, cartSet]
  by_cases hany : cart.any (fun p => p.1 == jid)
  · rw [if_pos hany]
    obtain ⟨p0, hp0mem, hp0⟩ := List.any_eq_true.mp hany
    have hsome : (cart.find? (fun p => p.1 == jid)).isSome := by
      rw [List.find?_isSome]
      exact ⟨p0, hp0mem, hp0⟩
    obtain ⟨p1, hp1⟩ := Option.isSome_iff_exists.mp hsome
    rw [List.find?_map]
    have hcomp : ((fun p : Nat × Int => p.1 == jid) ∘
        (fun p => if p.1 == jid then ((jid, v) : Nat × Int) else p)) =
        (fun p : Nat × Int => p.1 == jid) := by
      funext p
      by_cases hk : (p.1 == jid) = true
      · have hk' : p.1 = jid := by simpa using hk
        simp [hk']
      · have hk' : ¬ p.1 = jid := by simpa using hk
        simp [hk']
    rw [hcomp, hp1]
    have hk1 : (p1.1 == jid) = true :=
      List.find?_some (p := fun p : Nat × Int => p.1 == jid) hp1
    have hk1' : p1.1 = jid := by simpa using hk1
    simp [hk1']
  · rw [if_neg hany]
    have hnone : cart.find? (fun p => p.1 == jid) = none := by
      rw [List.find?_eq_none]
      intro p hp
      exact fun hk => hany (List.any_eq_true.mpr ⟨p, hp, hk⟩)
    rw [List.find?_append, hnone]
    simp [List.find?_cons]

/-- C9. Every quantity in the cart stays strictly positive: adding with a
requested quantity `≤ 0` coerces it to 1 (the stored quantity still grows by
exactly 1), adding always strictly increases the entry, and removal and the
empty cart trivially preserve the invariant. -/
theorem c9_carrinho_positivo (cart : Cart) (jid : Nat) (q : Int) (h : cartPos cart) :
    cartPos (adicionar_ao_carrinho cart jid q)
    ∧ cartPos (remover_do_carrinho cart jid)
    ∧ cartPos ([] : Cart)
    ∧ (q ≤ 0 → cartGet (adicionar_ao_carrinho cart jid q) jid = cartGet cart jid + 1)
    ∧ cartGet cart jid < cartGet (adicionar_ao_carrinho cart jid q) jid := by
  have hqtd : 1 ≤ (if q ≤ 0 then 1 else q) := by
    by_cases hq : q ≤ 0
    · simp [hq]
    · simp [hq]
      omega
  have hget := cartGet_nonneg cart jid h
  refine ⟨?_, ?_, ?_, ?_, ?_⟩
  · intro p hp
    rcases mem_cartSet _ _ _ p hp with hnew | hold
    · rw [hnew]
      show 0 < cartGet cart jid + _
      omega
    · exact h p hold
  · intro p hp
    rw [remover_do_carrinho] at hp
    by_cases hany : cart.any (fun p => p.1 == jid)
    · rw [if_pos hany] at hp
      exact h p (List.mem_of_mem_filter hp)
    · rw [if_neg hany] at hp
      exact h p hp
  · intro p hp
    cases hp
  · intro hq
    rw [adicionar_ao_carrinho]
    simp only [if_pos hq]
    exact cartGet_cartSet_self cart jid (cartGet cart jid + 1)
  · rw [adicionar_ao_carrinho, cartGet_cartSet_self]
    omega

/-- Witness for C9 on a concrete cart `{1: 2}`: adding game 7 with requested
quantity `-5` stores quantity 1, all entries stay positive, and adding to
game 1 strictly increases its entry. -/
theorem c9_carrinho_positivo_witness :
    cartPos (adicionar_ao_carrinho [(1, 2)] 7 (-5))
    ∧ (cartGet (adicionar_ao_carrinho [(1, 2)] 7 (-5)) 7 = cartGet [(1, 2)] 7 + 1)
    ∧ cartGet [(1, 2)] 1 < cartGet (adicionar_ao_carrinho [(1, 2)] 1 3) 1 := by
  have hpos : cartPos [(1, 2)] := by
    intro p hp
    rw [List.mem_singleton.mp hp]
    decide
  have h7 := c9_carrinho_positivo [(1, 2)] 7 (-5) hpos
  have h1 := c9_carrinho_positivo [(1, 2)] 1 3 hpos
  exact ⟨h7.1, h7.2.2.2.1 (by decide), h1.2.2.2.2⟩

/-! ## Lemmas: checkout -/

theorem findSome?_decomp {α β : Type} (f : α → Option β) :
    ∀ (l : List α) (b : β), l.findSome? f = some b →
      ∃ pre x post, l = pre ++ x :: post ∧ (∀ y ∈ pre, f y = none) ∧ f x = some b := by
  intro l
  induction l with
  | nil => intro b h; simp at h
  | cons a l ih =>
    intro b h
    cases hfa : f a with
    | some c =>
      rw [List.findSome?_cons_of_isSome l (by simp [hfa])] at h
      refine ⟨[], a, l, rfl, ?_, h⟩
      intro y hy
      cases hy
    | none =>
      rw [List.findSome?_cons_of_isNone l (by simp [hfa])] at h
      obtain ⟨pre, x, post, hl, hpre, hx⟩ := ih b h
      refine ⟨a :: pre, x, post, by rw [hl]; rfl, ?_, hx⟩
      intro y hy
      rcases List.mem_cons.mp hy with rfl | hy'
      · exact hfa
      · exact hpre y hy'

theorem cartQty_cons (jid : Nat) (q : Int) (rest : Cart) (x : Nat) :
    cartQty ((jid, q) :: rest) x = if jid == x then some q else cartQty rest x := by
  by_cases h : (jid == x) = true
  · simp [cartQty, List.find?_cons, h]
  · simp [cartQty, List.find?_cons, h]

theorem cartQty_eq_none (rest : Cart) (jid : Nat) (h : jid ∉ cartKeys rest) :
    cartQty rest jid = none := by
  rw [cartQty]
  have : rest.find? (fun p => p.1 == jid) = none := by
    rw [List.find?_eq_none]
    intro p hp hmem
    exact h (List.mem_map.mpr ⟨p, hp, by simpa using hmem⟩)
  rw [this]
  rfl

theorem find?_decrementa (jogos : List Jogo) (jid : Nat) (q : Int) (x : Nat) :
    (decrementa jogos jid q).find? (fun j => j.id == x) =
      (jogos.find? (fun j => j.id == x)).map (fun j =>
        if j.id == jid then
          { j with copias_total :=
              if j.copias_total - q < 0 then 0 else j.copias_total - q }
        else j) := by
  rw [decrementa, List.find?_map]
  have hcomp : ((fun j : Jogo => j.id == x) ∘ (fun j =>
      if j.id == jid then
        { j with copias_total :=
            if j.copias_total - q < 0 then 0 else j.copias_total - q }
      else j)) = fun j : Jogo => j.id == x := by
    funext j
    by_cases hk : (j.id == jid) = true
    · have hk' : j.id = jid := by simpa using hk
      simp [hk']
    · have hk' : ¬ j.id = jid := by simpa using hk
      simp [hk']
  rw [hcomp]

theorem itensNovos_decrementa (jid : Nat) (q : Int) (pid : Nat) :
    ∀ (rest : Cart) (jogos : List Jogo) (n : Nat),
      itensNovos pid n (decrementa jogos jid q) rest = itensNovos pid n jogos rest := by
  intro rest
  induction rest with
  | nil => intro jogos n; rfl
  | cons p rest ih =>
    intro jogos n
    obtain ⟨x, qq⟩ := p
    simp only [itensNovos, find?_decrementa]
    cases hf : jogos.find? (fun j => j.id == x) with
    | none => simpa using ih jogos n
    | some j0 => simpa using ih jogos (n + 1)

theorem mem_decrementa (jogos : List Jogo) (jid : Nat) (q : Int) (j' : Jogo)
    (h : j' ∈ decrementa jogos jid q) :
    ∃ j ∈ jogos, j'.id = j.id ∧ (¬ j.id = jid → j' = j) ∧
      (j.id = jid → j' = { j with copias_total :=
        if j.copias_total - q < 0 then 0 else j.copias_total - q }) := by
  rw [decrementa] at h
  obtain ⟨j1, hj1, hk⟩ := List.mem_map.mp h
  by_cases hb : (j1.id == jid) = true
  · have hid : j1.id = jid := by simpa using hb
    refine ⟨j1, hj1, ?_, fun hne => absurd hid hne, fun _ => ?_⟩
    · rw [← hk]; simp [hb]
    · rw [← hk]; simp [hb]
  · have hid : ¬ j1.id = jid := by simpa using hb
    refine ⟨j1, hj1, ?_, fun _ => ?_, fun heq => absurd heq hid⟩
    · rw [← hk]; simp [hb]
    · rw [← hk]; simp [hb]

theorem jogoDebitadoSemClamp_cons_ne (jid : Nat) (q : Int) (rest : Cart) (j : Jogo)
    (h : ¬ j.id = jid) :
    jogoDebitadoSemClamp ((jid, q) :: rest) j = jogoDebitadoSemClamp rest j := by
  rw [jogoDebitadoSemClamp, jogoDebitadoSemClamp, cartQty_cons]
  have hb : (jid == j.id) = false := by
    simp
    omega
  rw [hb]
  simp

theorem jogoDebitadoSemClamp_cons_eq (jid : Nat) (q : Int) (rest : Cart) (j : Jogo)
    (h : j.id = jid) :
    jogoDebitadoSemClamp ((jid, q) :: rest) j =
      { j with copias_total := j.copias_total - q } := by
  rw [jogoDebitadoSemClamp, cartQty_cons]
  have hb : (jid == j.id) = true := by simp [h]
  rw [hb]
  simp

/-- Full characterization of the order-creation loop, under the two database
facts the handler may rely upon — the cart keys are distinct (Python dict)
and every cart line's game has enough total copies (a consequence of the
passed stock pre-check): the games table is mapped through the exact,
clamp-free debit, the items table gains exactly one line per resolving cart
entry, and the autoincrement advances by that number of lines. -/
theorem comprarItens_caracterizacao :
    ∀ (cart : Cart) (jogos : List Jogo) (itens : List ItemPedido) (pid nid : Nat),
      (cartKeys cart).Nodup →
      (∀ p ∈ cart, ∀ j ∈ jogos, j.id = p.1 → p.2 ≤ j.copias_total) →
      comprarItens jogos itens pid nid cart =
        (jogos.map (jogoDebitadoSemClamp cart),
         itens ++ itensNovos pid nid jogos cart,
         nid + (itensNovos pid nid jogos cart).length) := by
  intro cart
  induction cart with
  | nil =>
    intro jogos itens pid nid _ _
    have hmap : ∀ js : List Jogo, js.map (jogoDebitadoSemClamp []) = js := by
      intro js
      induction js with
      | nil => rfl
      | cons a t iht =>
        rw [List.map_cons, iht]
        rfl
    simp only [comprarItens, itensNovos, List.append_nil, List.length_nil,
      Nat.add_zero, hmap]
  | cons p rest ih =>
    intro jogos itens pid nid hkeys hstock
    obtain ⟨jid, q⟩ := p
    have hkc : (jid :: cartKeys rest).Nodup := hkeys
    have hjidnot : jid ∉ cartKeys rest := (List.nodup_cons.mp hkc).1
    have hkeys' : (cartKeys rest).Nodup := (List.nodup_cons.mp hkc).2
    have hstock' : ∀ p ∈ rest, ∀ j ∈ jogos, j.id = p.1 → p.2 ≤ j.copias_total :=
      fun p hp => hstock p (List.mem_cons_of_mem _ hp)
    cases hf : jogos.find? (fun j => j.id == jid) with
    | none =>
      have hnone := List.find?_eq_none.mp hf
      have step : comprarItens jogos itens pid nid ((jid, q) :: rest) =
          comprarItens jogos itens pid nid rest := by
        simp only [comprarItens, hf]
      have stepItens : itensNovos pid nid jogos ((jid, q) :: rest) =
          itensNovos pid nid jogos rest := by
        simp only [itensNovos, hf]
      have hmap : jogos.map (jogoDebitadoSemClamp ((jid, q) :: rest)) =
          jogos.map (jogoDebitadoSemClamp rest) := by
        apply List.map_congr_left
        intro j hj
        have hne : ¬ j.id = jid := by simpa using hnone j hj
        exact jogoDebitadoSemClamp_cons_ne jid q rest j hne
      rw [step, ih jogos itens pid nid hkeys' hstock', stepItens, hmap]
    | some j0 =>
      have hj0id : j0.id = jid := by
        simpa using List.find?_some (p := fun j : Jogo => j.id == jid) hf
      have step : comprarItens jogos itens pid nid ((jid, q) :: rest) =
          comprarItens (decrementa jogos jid q)
            (itens ++ [⟨nid, pid, j0.id, q⟩]) pid (nid + 1) rest := by
        simp only [comprarItens, hf]
      have hstock'' : ∀ p ∈ rest, ∀ j ∈ decrementa jogos jid q,
          j.id = p.1 → p.2 ≤ j.copias_total := by
        intro p hp j' hj' hid
        obtain ⟨j, hj, hid', hne, heq⟩ := mem_decrementa jogos jid q j' hj'
        by_cases hjj : j.id = jid
        · exfalso
          apply hjidnot
          have : p.1 = jid := by rw [← hid, hid', hjj]
          rw [← this]
          exact List.mem_map.mpr ⟨p, hp, rfl⟩
        · rw [hne hjj]
          exact hstock' p hp j hj (by rw [← hid', hid])
      have ihx := ih (decrementa jogos jid q)
        (itens ++ [(⟨nid, pid, j0.id, q⟩ : ItemPedido)]) pid (nid + 1) hkeys' hstock''
      rw [step, ihx, itensNovos_decrementa]
      have stepItens : itensNovos pid nid jogos ((jid, q) :: rest) =
          ⟨nid, pid, jid, q⟩ :: itensNovos pid (nid + 1) jogos rest := by
        simp only [itensNovos, hf]
      have hmap : (decrementa jogos jid q).map (jogoDebitadoSemClamp rest) =
          jogos.map (jogoDebitadoSemClamp ((jid, q) :: rest)) := by
        rw [decrementa, List.map_map]
        apply List.map_congr_left
        intro j hj
        by_cases hjj : j.id = jid
        · have hq : q ≤ j.copias_total :=
            hstock (jid, q) (List.mem_cons_self _ _) j hj hjj
          have hb : (j.id == jid) = true := by simp [hjj]
          have hclamp : ¬ (j.copias_total - q < 0) := by omega
          rw [Function.comp_apply]
          rw [jogoDebitadoSemClamp_cons_eq jid q rest j hjj]
          simp only [hb, if_true, hclamp, if_false]
          rw [jogoDebitadoSemClamp]
          have hqty : cartQty rest jid = none := cartQty_eq_none rest jid hjidnot
          have : cartQty rest
              ({ j with copias_total := j.copias_total - q } : Jogo).id = none := by
            show cartQty rest j.id = none
            rw [hjj, hqty]
          rw [this]
        · have hb : (j.id == jid) = false := by simp [hjj]
          rw [Function.comp_apply]
          simp only [hb, Bool.false_eq_true, if_false]
          exact (jogoDebitadoSemClamp_cons_ne jid q rest j hjj).symm
      rw [hmap, stepItens, hj0id]
      simp only [Prod.mk.injEq, true_and]
      refine ⟨?_, ?_⟩
      · rw [List.append_assoc, List.singleton_append]
      · rw [List.length_cons]
        omega

/-- A passed stock pre-check bounds every cart quantity by the total copies
of its game (primary keys are unique, so the `jogos_map` lookup and table
membership agree). -/
theorem estoque_ok_of_pre_check (st : LojaState) (cart : Cart)
    (hids : (st.jogos.map Jogo.id).Nodup)
    (hok : primeiroInsuficiente st cart = none) :
    ∀ p ∈ cart, ∀ j ∈ st.jogos, j.id = p.1 → p.2 ≤ j.copias_total := by
  intro p hp j hj hid
  have hnone : lineFalha st p = none := by
    rw [primeiroInsuficiente, List.findSome?_eq_none_iff] at hok
    exact hok p hp
  have hsome : (st.jogos.find? (fun x => x.id == p.1)).isSome := by
    rw [List.find?_isSome]
    exact ⟨j, hj, by simp [hid]⟩
  obtain ⟨j', hj'⟩ := Option.isSome_iff_exists.mp hsome
  have hj'id : j'.id = p.1 := by
    simpa using List.find?_some (p := fun x : Jogo => x.id == p.1) hj'
  have hjj : j' = j := by
    have hmem := List.mem_of_find?_eq_some hj'
    exact List.inj_on_of_nodup_map hids hmem hj (by rw [hj'id, hid])
  rw [lineFalha, show findJogo st p.1 = some j' from hj'] at hnone
  have hnone' : (if disponiveis st j' < p.2 then some (j', p.2) else none) =
      (none : Option (Jogo × Int)) := hnone
  by_cases hlt : disponiveis st j' < p.2
  · rw [if_pos hlt] at hnone'
    cases hnone'
  · rw [hjj] at hlt
    have hcount : disponiveis st j ≤ j.copias_total := by
      rw [disponiveis, copias_disponiveis]
      have hz : (0 : Int) ≤
          (((locacoesDoJogo st.locacoes j.id).filter
            (fun l => l.status == "ALUGADO")).length : Int) := Int.ofNat_nonneg _
      omega
    omega

theorem itensNovos_quantidades (pid : Nat) (jogos : List Jogo) :
    ∀ (cart : Cart) (nid : Nat),
      (itensNovos pid nid jogos cart).map (fun i => (i.jogo_id, i.quantidade)) =
        cart.filter (fun p => (jogos.find? (fun j => j.id == p.1)).isSome) := by
  intro cart
  induction cart with
  | nil => intro nid; rfl
  | cons p rest ih =>
    intro nid
    obtain ⟨jid, q⟩ := p
    cases hf : jogos.find? (fun j => j.id == jid) with
    | none =>
      simp only [itensNovos, hf]
      rw [ih nid, List.filter_cons]
      simp [hf]
    | some j0 =>
      simp only [itensNovos, hf]
      rw [List.map_cons, ih (nid + 1), List.filter_cons]
      simp [hf]

theorem itensNovos_pedido (pid : Nat) (jogos : List Jogo) :
    ∀ (cart : Cart) (nid : Nat), ∀ i ∈ itensNovos pid nid jogos cart, i.pedido_id = pid := by
  intro cart
  induction cart with
  | nil => intro nid i hi; cases hi
  | cons p rest ih =>
    intro nid i hi
    obtain ⟨jid, q⟩ := p
    cases hf : jogos.find? (fun j => j.id == jid) with
    | none =>
      rw [itensNovos, hf] at hi
      exact ih nid i hi
    | some j0 =>
      rw [itensNovos, hf] at hi
      rcases List.mem_cons.mp hi with rfl | hi'
      · rfl
      · exact ih (nid + 1) i hi'

/-- C1. If any cart line fails the stock check (its game exists and has
fewer available copies than requested) and a customer was chosen, the
checkout aborts at the first such line with the error naming that game, and
the returned outcome carries the database state and the cart completely
unchanged — no order row, no order line, no inventory change. -/
theorem c1_checkout_tudo_ou_nada (st : LojaState) (cart : Cart)
    (cid today pid iid : Nat) (c : Cliente)
    (hc : findCliente st cid = some c)
    (hfail : ∃ p ∈ cart, ∃ j, findJogo st p.1 = some j ∧ disponiveis st j < p.2) :
    ∃ (pre post : Cart) (jid : Nat) (q : Int) (j : Jogo),
      cart = pre ++ (jid, q) :: post
      ∧ (∀ y ∈ pre, lineFalha st y = none)
      ∧ findJogo st jid = some j
      ∧ disponiveis st j < q
      ∧ finalizar_compra st cart cid today pid iid =
          .error (estoqueMsg j (disponiveis st j)) st cart := by
  have hne : cart ≠ [] := by
    obtain ⟨p, hp, -⟩ := hfail
    exact List.ne_nil_of_mem hp
  have hns : primeiroInsuficiente st cart ≠ none := by
    intro h0
    rw [primeiroInsuficiente, List.findSome?_eq_none_iff] at h0
    obtain ⟨p, hp, j, hjf, hlt⟩ := hfail
    have hz := h0 p hp
    rw [lineFalha, hjf] at hz
    have hz' : (if disponiveis st j < p.2 then some (j, p.2) else none) =
        (none : Option (Jogo × Int)) := hz
    rw [if_pos hlt] at hz'
    cases hz'
  obtain ⟨jq, hjq⟩ := Option.ne_none_iff_exists'.mp hns
  obtain ⟨j0, q0⟩ := jq
  obtain ⟨pre, x, post, hcart, hpre, hx⟩ :=
    findSome?_decomp (lineFalha st) cart (j0, q0) hjq
  rw [lineFalha] at hx
  cases hfx : findJogo st x.1 with
  | none =>
    rw [hfx] at hx
    cases hx
  | some jx =>
    rw [hfx] at hx
    have hx' : (if disponiveis st jx < x.2 then some (jx, x.2) else none) =
        some (j0, q0) := hx
    by_cases hlt : disponiveis st jx < x.2
    · rw [if_pos hlt] at hx'
      have hj0 : jx = j0 := congrArg Prod.fst (Option.some.inj hx')
      have hq0 : x.2 = q0 := congrArg Prod.snd (Option.some.inj hx')
      have hempty : cart.isEmpty = false := List.isEmpty_eq_false.mpr hne
      refine ⟨pre, post, x.1, x.2, j0, by rw [hcart], hpre, by rw [← hj0]; exact hfx,
        by rw [← hj0]; exact hlt, ?_⟩
      rw [finalizar_compra]
      simp only [hempty, Bool.false_eq_true, if_false, hc, hjq]
    · rw [if_neg hlt] at hx'
      cases hx'

/-- Witness for C1: a cart asking for 3 copies of a game with only 1
available — the checkout fails on that line and the outcome carries the
original state and cart. -/
theorem c1_checkout_tudo_ou_nada_witness :
    ∃ (pre post : Cart) (jid : Nat) (q : Int) (j : Jogo),
      ([(1, 3)] : Cart) = pre ++ (jid, q) :: post
      ∧ (∀ y ∈ pre, lineFalha ⟨[⟨1, "Z", "g", 2000, "PC", "D", 2⟩], [⟨1, "Ana", "t", "c", "e"⟩],
          [⟨1, 1, 1, 10, none, none, "ALUGADO"⟩], [], []⟩ y = none)
      ∧ findJogo ⟨[⟨1, "Z", "g", 2000, "PC", "D", 2⟩], [⟨1, "Ana", "t", "c", "e"⟩],
          [⟨1, 1, 1, 10, none, none, "ALUGADO"⟩], [], []⟩ jid = some j
      ∧ disponiveis ⟨[⟨1, "Z", "g", 2000, "PC", "D", 2⟩], [⟨1, "Ana", "t", "c", "e"⟩],
          [⟨1, 1, 1, 10, none, none, "ALUGADO"⟩], [], []⟩ j < q
      ∧ finalizar_compra ⟨[⟨1, "Z", "g", 2000, "PC", "D", 2⟩], [⟨1, "Ana", "t", "c", "e"⟩],
          [⟨1, 1, 1, 10, none, none, "ALUGADO"⟩], [], []⟩ [(1, 3)] 1 20 1 1 =
          .error (estoqueMsg j (disponiveis ⟨[⟨1, "Z", "g", 2000, "PC", "D", 2⟩],
              [⟨1, "Ana", "t", "c", "e"⟩], [⟨1, 1, 1, 10, none, none, "ALUGADO"⟩], [], []⟩ j))
            ⟨[⟨1, "Z", "g", 2000, "PC", "D", 2⟩], [⟨1, "Ana", "t", "c", "e"⟩],
             [⟨1, 1, 1, 10, none, none, "ALUGADO"⟩], [], []⟩ [(1, 3)] :=
  c1_checkout_tudo_ou_nada ⟨[⟨1, "Z", "g", 2000, "PC", "D", 2⟩], [⟨1, "Ana", "t", "c", "e"⟩],
      [⟨1, 1, 1, 10, none, none, "ALUGADO"⟩], [], []⟩ [(1, 3)] 1 20 1 1
    ⟨1, "Ana", "t", "c", "e"⟩ (by decide)
    ⟨(1, 3), by decide, ⟨1, "Z", "g", 2000, "PC", "D", 2⟩, by decide, by decide⟩

/-- C5. When the stock pre-check has passed (no cart line is insufficient),
the defensive clamp in the decrement step never acts: the games produced by
the checkout loop are exactly those of the clamp-free debit, and every
debited total stays non-negative.  The cart-keys/primary-keys distinctness
are the dictionary and database invariants the handler runs under. -/
theorem c5_clamp_inofensivo (st : LojaState) (cart : Cart) (pid nid : Nat)
    (hkeys : (cartKeys cart).Nodup)
    (hids : (st.jogos.map Jogo.id).Nodup)
    (hok : primeiroInsuficiente st cart = none) :
    (comprarItens st.jogos st.itens pid nid cart).1 =
      st.jogos.map (jogoDebitadoSemClamp cart)
    ∧ (∀ p ∈ cart, ∀ j ∈ st.jogos, j.id = p.1 → 0 ≤ j.copias_total - p.2) := by
  have hstock := estoque_ok_of_pre_check st cart hids hok
  constructor
  · rw [comprarItens_caracterizacao cart st.jogos st.itens pid nid hkeys hstock]
  · intro p hp j hj hid
    have := hstock p hp j hj hid
    omega

/-- Witness for C5: two games, cart buying both within stock; the loop
output equals the clamp-free debit and no total goes negative. -/
theorem c5_clamp_inofensivo_witness :
    (comprarItens [⟨1, "Z", "g", 2000, "PC", "D", 2⟩, ⟨2, "M", "g", 2001, "PC", "D", 1⟩]
        [] 4 7 [(1, 1), (2, 1)]).1 =
      [⟨1, "Z", "g", 2000, "PC", "D", 2⟩, ⟨2, "M", "g", 2001, "PC", "D", 1⟩].map
        (jogoDebitadoSemClamp [(1, 1), (2, 1)])
    ∧ (∀ p ∈ ([(1, 1), (2, 1)] : Cart),
        ∀ j ∈ ([⟨1, "Z", "g", 2000, "PC", "D", 2⟩,
                ⟨2, "M", "g", 2001, "PC", "D", 1⟩] : List Jogo),
        j.id = p.1 → 0 ≤ j.copias_total - p.2) :=
  c5_clamp_inofensivo
    ⟨[⟨1, "Z", "g", 2000, "PC", "D", 2⟩, ⟨2, "M", "g", 2001, "PC", "D", 1⟩],
     [⟨1, "Ana", "t", "c", "e"⟩], [], [], []⟩ [(1, 1), (2, 1)] 4 7
    (by decide) (by decide) (by decide)

/-- Counterexample to C3 as stated: a cart entry whose game id matches no
game row (reachable, since `/carrinho/adicionar/<id>` never checks that the
game exists).  Checkout nevertheless succeeds — the loop skips the entry —
creating an order with `0` order lines for a cart with `1` entry, so "one
order-line row per cart entry" fails. -/
theorem c3_contraexemplo :
    finalizar_compra ⟨[], [⟨1, "Ana", "t", "c", "e"⟩], [], [], []⟩ [(1, 2)] 1 5 1 1 =
      CheckoutResult.success ⟨[], [⟨1, "Ana", "t", "c", "e"⟩], [],
        [⟨1, 1, 5, "CONCLUIDO"⟩], []⟩ []
    ∧ (⟨[], [⟨1, "Ana", "t", "c", "e"⟩], [], [⟨1, 1, 5, "CONCLUIDO"⟩], []⟩
        : LojaState).itens.length = 0
    ∧ ([(1, 2)] : Cart).length = 1 := by
  decide

/-- C3 (amended). After a successful checkout exactly one order row is
created for the chosen customer, the items table gains exactly one
order-line per cart entry whose game id resolves to an existing game row
(entries referencing no game are silently skipped), carrying that entry's
quantity and the new order's id, each resolving purchased game's total
copies decreases by exactly the purchased quantity (never below zero), and
the cart is cleared. -/
theorem c3_checkout_sucesso (st : LojaState) (cart : Cart)
    (cid today pid iid : Nat) (c : Cliente)
    (hcart : cart ≠ [])
    (hc : findCliente st cid = some c)
    (hok : primeiroInsuficiente st cart = none)
    (hkeys : (cartKeys cart).Nodup)
    (hids : (st.jogos.map Jogo.id).Nodup) :
    finalizar_compra st cart cid today pid iid =
      CheckoutResult.success { st with
        jogos := st.jogos.map (jogoDebitadoSemClamp cart),
        pedidos := st.pedidos ++ [⟨pid, c.id, today, "CONCLUIDO"⟩],
        itens := st.itens ++ itensNovos pid iid st.jogos cart } []
    ∧ ((itensNovos pid iid st.jogos cart).map (fun i => (i.jogo_id, i.quantidade)) =
        cart.filter (fun p => (st.jogos.find? (fun j => j.id == p.1)).isSome))
    ∧ (∀ i ∈ itensNovos pid iid st.jogos cart, i.pedido_id = pid)
    ∧ (∀ j ∈ st.jogos, ∀ q : Int, cartQty cart j.id = some q →
        (jogoDebitadoSemClamp cart j).copias_total = j.copias_total - q
        ∧ 0 ≤ j.copias_total - q)
    ∧ (∀ j ∈ st.jogos, cartQty cart j.id = none → jogoDebitadoSemClamp cart j = j) := by
  have hstock := estoque_ok_of_pre_check st cart hids hok
  have hchar := comprarItens_caracterizacao cart st.jogos st.itens pid iid hkeys hstock
  refine ⟨?_, itensNovos_quantidades pid st.jogos cart iid,
    itensNovos_pedido pid st.jogos cart iid, ?_, ?_⟩
  · have hempty : cart.isEmpty = false := List.isEmpty_eq_false.mpr hcart
    rw [finalizar_compra]
    simp only [hempty, Bool.false_eq_true, if_false, hc, hok, hchar]
  · intro j hj q hq
    rw [cartQty] at hq
    obtain ⟨p0, hp0, hsnd⟩ := Option.map_eq_some'.mp hq
    have hp0mem := List.mem_of_find?_eq_some hp0
    have hp0key : p0.1 = j.id := by
      simpa using List.find?_some (p := fun p : Nat × Int => p.1 == j.id) hp0
    have hbound : p0.2 ≤ j.copias_total := hstock p0 hp0mem j hj hp0key.symm
    constructor
    · rw [jogoDebitadoSemClamp, show cartQty cart j.id = some q from hq]
    · omega
  · intro j hj hq
    rw [jogoDebitadoSemClamp, hq]

/-- Witness for C3 (amended): one game with 2 copies, cart buying 1 copy;
checkout succeeds, creating the order, one line, debiting the stock to 1,
and clearing the cart. -/
theorem c3_checkout_sucesso_witness :
    finalizar_compra ⟨[⟨1, "Z", "g", 2000, "PC", "D", 2⟩], [⟨1, "Ana", "t", "c", "e"⟩],
        [], [], []⟩ [(1, 1)] 1 9 4 7 =
      CheckoutResult.success ⟨[⟨1, "Z", "g", 2000, "PC", "D", 1⟩],
        [⟨1, "Ana", "t", "c", "e"⟩], [], [⟨4, 1, 9, "CONCLUIDO"⟩], [⟨7, 4, 1, 1⟩]⟩ [] := by
  have h := c3_checkout_sucesso ⟨[⟨1, "Z", "g", 2000, "PC", "D", 2⟩],
    [⟨1, "Ana", "t", "c", "e"⟩], [], [], []⟩ [(1, 1)] 1 9 4 7 ⟨1, "Ana", "t", "c", "e"⟩
    (by decide) (by decide) (by decide) (by decide) (by decide)
  exact h.1.trans (by decide)

/-! ## Lemmas: decimal representation round-trip

`Nat.repr` (what the f-string interpolation prints) parses back through the
embedded Python `int`. -/

theorem toDigitsCore_zero (n : Nat) (ds : List Char) :
    Nat.toDigitsCore 10 0 n ds = ds := rfl

theorem toDigitsCore_succ (f n : Nat) (ds : List Char) :
    Nat.toDigitsCore 10 (f + 1) n ds =
      if n / 10 = 0 then Nat.digitChar (n % 10) :: ds
      else Nat.toDigitsCore 10 f (n / 10) (Nat.digitChar (n % 10) :: ds) := rfl

theorem digitChar_isDigit : ∀ m, m < 10 → (Nat.digitChar m).isDigit = true := by decide

theorem digitVal_digitChar : ∀ m, m < 10 → digitVal (Nat.digitChar m) = m := by decide

theorem toDigitsCore_length_le :
    ∀ (f n : Nat) (ds : List Char), ds.length ≤ (Nat.toDigitsCore 10 f n ds).length := by
  intro f
  induction f with
  | zero =>
    intro n ds
    rw [toDigitsCore_zero]
  | succ f ih =>
    intro n ds
    rw [toDigitsCore_succ]
    by_cases hz : n / 10 = 0
    · rw [if_pos hz, List.length_cons]
      omega
    · rw [if_neg hz]
      have := ih (n / 10) (Nat.digitChar (n % 10) :: ds)
      rw [List.length_cons] at this
      omega

theorem toDigitsCore_ne_nil (f n : Nat) (ds : List Char) (hf : 0 < f) :
    Nat.toDigitsCore 10 f n ds ≠ [] := by
  cases f with
  | zero => omega
  | succ f =>
    rw [toDigitsCore_succ]
    by_cases hz : n / 10 = 0
    · rw [if_pos hz]
      exact List.cons_ne_nil _ _
    · rw [if_neg hz]
      have := toDigitsCore_length_le f (n / 10) (Nat.digitChar (n % 10) :: ds)
      rw [List.length_cons] at this
      intro hnil
      rw [hnil] at this
      simp at this

theorem toDigitsCore_all_digits :
    ∀ (f n : Nat) (ds : List Char), (∀ c ∈ ds, c.isDigit = true) →
      ∀ c ∈ Nat.toDigitsCore 10 f n ds, c.isDigit = true := by
  intro f
  induction f with
  | zero =>
    intro n ds hds
    rw [toDigitsCore_zero]
    exact hds
  | succ f ih =>
    intro n ds hds
    have hcons : ∀ c ∈ Nat.digitChar (n % 10) :: ds, c.isDigit = true := by
      intro c hc
      rcases List.mem_cons.mp hc with rfl | hc'
      · exact digitChar_isDigit (n % 10) (by omega)
      · exact hds c hc'
    rw [toDigitsCore_succ]
    by_cases hz : n / 10 = 0
    · rw [if_pos hz]
      exact hcons
    · rw [if_neg hz]
      exact ih (n / 10) (Nat.digitChar (n % 10) :: ds) hcons

theorem toDigitsCore_foldl :
    ∀ (f n a : Nat) (ds : List Char), n < f →
      (Nat.toDigitsCore 10 f n ds).foldl (fun acc c => acc * 10 + digitVal c) a =
        ds.foldl (fun acc c => acc * 10 + digitVal c) (a * 10 ^ numDigits n + n) := by
  intro f
  induction f with
  | zero => intro n a ds hn; omega
  | succ f ih =>
    intro n a ds hn
    rw [toDigitsCore_succ]
    by_cases hz : n / 10 = 0
    · rw [if_pos hz, List.foldl_cons]
      have hn10 : n < 10 := by omega
      have h1 : numDigits n = 1 := by
        rw [numDigits]
        simp [hn10]
      rw [digitVal_digitChar (n % 10) (by omega), h1]
      congr 1
      have hmod : n % 10 = n := by omega
      rw [hmod, pow_one]
    · rw [if_neg hz]
      have hlt : n / 10 < f := by omega
      rw [ih (n / 10) a (Nat.digitChar (n % 10) :: ds) hlt, List.foldl_cons]
      congr 1
      rw [digitVal_digitChar (n % 10) (by omega)]
      have hnd : numDigits n = numDigits (n / 10) + 1 := by
        rw [numDigits]
        simp [show ¬ n < 10 by omega]
      rw [hnd, pow_succ]
      have hexp : (a * 10 ^ numDigits (n / 10) + n / 10) * 10 + n % 10 =
          a * 10 ^ numDigits (n / 10) * 10 + (n / 10 * 10 + n % 10) := by ring
      rw [hexp]
      have hdm : n / 10 * 10 + n % 10 = n := by omega
      rw [hdm]
      ring

theorem repr_data (n : Nat) : (Nat.repr n).data = Nat.toDigitsCore 10 (n + 1) n [] := rfl

theorem pyNat?_repr (n : Nat) : pyNat? (Nat.repr n).data = some n := by
  rw [repr_data, pyNat?]
  have hne : Nat.toDigitsCore 10 (n + 1) n [] ≠ [] :=
    toDigitsCore_ne_nil (n + 1) n [] (by omega)
  have hdig : ∀ c ∈ Nat.toDigitsCore 10 (n + 1) n [], c.isDigit = true :=
    toDigitsCore_all_digits (n + 1) n [] (by intro c hc; cases hc)
  have hguard : (!(Nat.toDigitsCore 10 (n + 1) n []).isEmpty &&
      (Nat.toDigitsCore 10 (n + 1) n []).all (fun c => c.isDigit)) = true := by
    have h1 : (Nat.toDigitsCore 10 (n + 1) n []).isEmpty = false :=
      List.isEmpty_eq_false.mpr hne
    have h2 : (Nat.toDigitsCore 10 (n + 1) n []).all (fun c => c.isDigit) = true :=
      List.all_eq_true.mpr hdig
    rw [h1, h2]
    rfl
  rw [if_pos hguard]
  congr 1
  rw [toDigitsCore_foldl (n + 1) n 0 [] (by omega)]
  simp

theorem pyInt?_repr (n : Nat) : pyInt? (Nat.repr n) = some ((n : Nat) : Int) := by
  have hne : (Nat.repr n).data ≠ [] := by
    rw [repr_data]
    exact toDigitsCore_ne_nil (n + 1) n [] (by omega)
  obtain ⟨c, cs, hcons⟩ : ∃ c cs, (Nat.repr n).data = c :: cs := by
    cases hd : (Nat.repr n).data with
    | nil => exact absurd hd hne
    | cons c cs => exact ⟨c, cs, rfl⟩
  have hdig : ∀ x ∈ (Nat.repr n).data, x.isDigit = true := by
    rw [repr_data]
    exact toDigitsCore_all_digits (n + 1) n [] (by intro x hx; cases hx)
  have hc : c.isDigit = true := hdig c (by rw [hcons]; exact List.mem_cons_self c cs)
  have hcm : ¬ c = '-' := by
    intro h
    rw [h] at hc
    exact absurd hc (by decide)
  have hcp : ¬ c = '+' := by
    intro h
    rw [h] at hc
    exact absurd hc (by decide)
  rw [pyInt?, hcons, pyIntAux, if_neg hcm, if_neg hcp, ← hcons, pyNat?_repr]
  rfl

/-! ## Lemmas: matriculation allocator -/

theorem string_length_data (s : String) : s.length = s.data.length := by
  cases s
  rfl

theorem pyStartsWith_append (pre x : String) : pyStartsWith (pre ++ x) pre = true := by
  rw [pyStartsWith, String.data_append, List.take_left]
  simp

theorem string_drop_append (pre x : String) : (pre ++ x).drop pre.length = x := by
  apply String.ext
  rw [String.data_drop, String.data_append, string_length_data, List.drop_left]

theorem string_append_cancel (a : String) {x y : String} (h : a ++ x = a ++ y) : x = y := by
  apply String.ext
  have hd : (a ++ x).data = (a ++ y).data := by rw [h]
  rw [String.data_append, String.data_append] at hd
  exact List.append_cancel_left hd

theorem repr_injective {a b : Nat} (h : Nat.repr a = Nat.repr b) : a = b := by
  have ha := pyNat?_repr a
  rw [h, pyNat?_repr b] at ha
  exact (Option.some.inj ha).symm

theorem toString_intCast (m : Nat) : toString ((m : Nat) : Int) = Nat.repr m := rfl

theorem maxById_append (l : List Aluno) (a : Aluno) (h : ∀ b ∈ l, b.id < a.id) :
    maxById (l ++ [a]) = some a := by
  induction l with
  | nil => rfl
  | cons b l ih =>
    rw [List.cons_append]
    simp only [maxById]
    rw [ih (fun x hx => h x (List.mem_cons_of_mem b hx))]
    have hb : b.id < a.id := h b (List.mem_cons_self b l)
    simp [hb]

theorem ultimoPorCurso_nenhum (alunos : List Aluno) (curso : String)
    (h : ∀ a ∈ alunos, a.curso ≠ curso) : ultimoPorCurso alunos curso = none := by
  rw [ultimoPorCurso, List.filter_eq_nil_iff.mpr (by intro a ha; simp [h a ha])]
  rfl

theorem ultimoPorCurso_append (alunos : List Aluno) (curso : String) (a : Aluno)
    (ha : a.curso = curso) (hids : ∀ b ∈ alunos, b.id < a.id) :
    ultimoPorCurso (alunos ++ [a]) curso = some a := by
  rw [ultimoPorCurso, List.filter_append]
  have hfa : List.filter (fun x => x.curso == curso) [a] = [a] := by simp [ha]
  rw [hfa]
  exact maxById_append _ a (fun b hb => hids b (List.mem_of_mem_filter hb))

theorem gerar_matricula_vazio (alunos : List Aluno) (curso : String)
    (h : ultimoPorCurso alunos curso = none) :
    gerar_matricula alunos curso = curso ++ "1" := by
  simp only [gerar_matricula, h]
  rfl

theorem gerar_matricula_succ (alunos : List Aluno) (curso : String) (u : Aluno) (m : Nat)
    (h : ultimoPorCurso alunos curso = some u)
    (hm : u.matricula = curso ++ Nat.repr m) :
    gerar_matricula alunos curso = curso ++ Nat.repr (m + 1) := by
  simp only [gerar_matricula, h, hm, pyStartsWith_append, if_true,
    string_drop_append, pyInt?_repr, Option.getD_some]
  have hcast : ((m : Nat) : Int) + 1 = (((m + 1 : Nat)) : Int) := by push_cast; ring
  rw [hcast, toString_intCast]

theorem matriculasDoCurso_append_match (alunos : List Aluno) (curso : String) (a : Aluno)
    (ha : a.curso = curso) :
    matriculasDoCurso (alunos ++ [a]) curso = matriculasDoCurso alunos curso ++ [a.matricula] := by
  rw [matriculasDoCurso, matriculasDoCurso, List.filter_append, List.map_append]
  congr 1
  simp [ha]

theorem matriculasDoCurso_nil (alunos : List Aluno) (curso : String)
    (h : ∀ a ∈ alunos, a.curso ≠ curso) : matriculasDoCurso alunos curso = [] := by
  rw [matriculasDoCurso, List.filter_eq_nil_iff.mpr (by intro a ha; simp [h a ha])]
  rfl

/-- The joint invariant of `k` sequential registrations in one course: all
primary keys stay below `nextId + k`, the course's matriculas are exactly
`curso1 … cursok` in order, and the next allocation yields `curso(k+1)`. -/
theorem registrarSeq_invariante (alunos : List Aluno) (curso : String)
    (nome email : Nat → String) (nextId : Nat)
    (hnone : ∀ a ∈ alunos, a.curso ≠ curso)
    (hids : ∀ a ∈ alunos, a.id < nextId) :
    ∀ k, (∀ a ∈ registrarSeq alunos curso nome email nextId k, a.id < nextId + k)
      ∧ matriculasDoCurso (registrarSeq alunos curso nome email nextId k) curso
          = (List.range k).map (fun i => curso ++ Nat.repr (i + 1))
      ∧ gerar_matricula (registrarSeq alunos curso nome email nextId k) curso
          = curso ++ Nat.repr (k + 1) := by
  intro k
  induction k with
  | zero =>
    refine ⟨?_, ?_, ?_⟩
    · intro a ha
      have := hids a ha
      omega
    · show matriculasDoCurso alunos curso = _
      rw [matriculasDoCurso_nil alunos curso hnone]
      rfl
    · show gerar_matricula alunos curso = _
      rw [gerar_matricula_vazio alunos curso (ultimoPorCurso_nenhum alunos curso hnone)]
      rfl
  | succ k ih =>
    obtain ⟨ih1, ih2, ih3⟩ := ih
    have hstep : registrarSeq alunos curso nome email nextId (k + 1) =
        registrarSeq alunos curso nome email nextId k ++
          [⟨nextId + k, nome k, email k, curso,
            gerar_matricula (registrarSeq alunos curso nome email nextId k) curso⟩] := rfl
    refine ⟨?_, ?_, ?_⟩
    · intro a ha
      rw [hstep] at ha
      rcases List.mem_append.mp ha with hmem | hmem
      · have := ih1 a hmem
        omega
      · have : a.id = nextId + k := by
          rw [List.mem_singleton.mp hmem]
        omega
    · rw [hstep, matriculasDoCurso_append_match _ _ _ rfl, ih2]
      rw [List.range_succ, List.map_append]
      congr 1
      rw [List.map_singleton]
      show [gerar_matricula (registrarSeq alunos curso nome email nextId k) curso] = _
      rw [ih3]
    · rw [hstep]
      have hult := ultimoPorCurso_append
        (registrarSeq alunos curso nome email nextId k) curso
        ⟨nextId + k, nome k, email k, curso,
          gerar_matricula (registrarSeq alunos curso nome email nextId k) curso⟩
        rfl (fun b hb => ih1 b hb)
      exact gerar_matricula_succ _ curso _ (k + 1) hult ih3

/-- C4. For a course with no students, the first allocation yields
`curso ++ "1"`; and along any run of sequential, non-concurrent
registrations in that course (fresh increasing primary keys), the stored
matriculas are exactly `curso1, curso2, …` in registration order — unique
and increasing by one — and the next allocation always appends the next
number. -/
theorem c4_matricula_sequencial (alunos : List Aluno) (curso : String)
    (nome email : Nat → String) (nextId : Nat)
    (hnone : ∀ a ∈ alunos, a.curso ≠ curso)
    (hids : ∀ a ∈ alunos, a.id < nextId) :
    gerar_matricula alunos curso = curso ++ "1"
    ∧ ∀ k,
        matriculasDoCurso (registrarSeq alunos curso nome email nextId k) curso
          = (List.range k).map (fun i => curso ++ Nat.repr (i + 1))
        ∧ (matriculasDoCurso (registrarSeq alunos curso nome email nextId k) curso).Nodup
        ∧ gerar_matricula (registrarSeq alunos curso nome email nextId k) curso
          = curso ++ Nat.repr (k + 1) := by
  have hinv := registrarSeq_invariante alunos curso nome email nextId hnone hids
  refine ⟨gerar_matricula_vazio _ _ (ultimoPorCurso_nenhum _ _ hnone),
    fun k => ⟨(hinv k).2.1, ?_, (hinv k).2.2⟩⟩
  rw [(hinv k).2.1]
  apply List.Nodup.map ?_ (List.nodup_range k)
  intro i j hij
  have hrepr := string_append_cancel curso hij
  have := repr_injective hrepr
  omega

/-- Witness for C4 on course `GEC` starting from an empty table: the first
registration gets `GEC1`, and two sequential registrations store exactly
`[GEC1, GEC2]`. -/
theorem c4_matricula_sequencial_witness :
    gerar_matricula [] "GEC" = "GEC1"
    ∧ matriculasDoCurso (registrarSeq [] "GEC" (fun _ => "n") (fun _ => "e") 1 2) "GEC"
        = ["GEC1", "GEC2"] := by
  have h := c4_matricula_sequencial [] "GEC" (fun _ => "n") (fun _ => "e") 1
    (by intro a ha; cases ha) (by intro a ha; cases ha)
  exact ⟨h.1.trans (by decide), ((h.2 2).1).trans (by decide)⟩

/-- C8. When the most recent student row of the course carries the course
prefix but a non-numeric suffix, the parse failure is swallowed (`except
ValueError: numero_atual = 0`): no error is reported and the allocator
returns `curso ++ "1"`. -/
theorem c8_sufixo_nao_numerico (alunos : List Aluno) (curso : String) (u : Aluno)
    (h : ultimoPorCurso alunos curso = some u)
    (hpre : pyStartsWith u.matricula curso = true)
    (hbad : pyInt? (u.matricula.drop curso.length) = none) :
    gerar_matricula alunos curso = curso ++ "1" := by
  simp only [gerar_matricula, h, hpre, if_true, hbad]
  rfl

/-- Witness for C8: the most recent `GEC` row holds matricula `GECX`; the
next generated matricula is `GEC1` and no error is raised. -/
theorem c8_sufixo_nao_numerico_witness :
    gerar_matricula [⟨1, "a", "e", "GEC", "GECX"⟩] "GEC" = "GEC1" := by
  have h := c8_sufixo_nao_numerico [⟨1, "a", "e", "GEC", "GECX"⟩] "GEC"
    ⟨1, "a", "e", "GEC", "GECX"⟩ (by decide) (by decide) (by decide)
  exact h.trans (by decide)
